import Mathlib

/-!
Shallow embedding of `src/FontCompress.py` (repository MCCAG/FontsCompress).

The source is a small Python tool with four operations:
* `extract_chars_from_html` (lines 15-28): regex-based character harvesting
  from markup;
* `extract_chars_from_js` (lines 31-59): regex-based character harvesting
  from script-like files;
* `collect_chars_from_directory` (lines 62-79): a per-file scan with a
  try/except that logs and skips failing files;
* `create_font_subset` (lines 82-103): loads a font, builds a code-point
  set, subsets via the fontTools library with a fixed option record, and
  saves to the output path.

Strings are modelled as `List Char`; each Python regex that the source uses
is implemented here as a direct executable matcher with the exact
lazy/greedy and flag (DOTALL / IGNORECASE) semantics of that one pattern.
The external fontTools library is modelled as a record of pure functions
(`FontLib`), and `create_font_subset` as explicit data/trace flow.
-/

namespace FontCompress

/-- Left brace character, written via its code point. -/
def lbrace : Char := Char.ofNat 123

/-- Right brace character, written via its code point. -/
def rbrace : Char := Char.ofNat 125

/-- Backtick character, written via its code point. -/
def backtickChar : Char := Char.ofNat 96

/-- Case folding used to model `re.IGNORECASE` on the ASCII tag and
attribute names appearing in the source's patterns. -/
def lowerList (s : List Char) : List Char := s.map Char.toLower

/-! ### `extract_chars_from_html` (source lines 15-28) -/

/-- Tag alternatives of the strip pattern on line 18, in alternation order:
`(script|style|noscript|meta)`. -/
def stripTagNames : List (List Char) := ["script", "style", "noscript", "meta"].map String.data

/-- The closing text the pattern on line 18 actually requires.  The raw
pattern string ends in an escaped slash, a double backslash and the digit
one, so the regex engine reads a literal backslash followed by a literal
digit one - not a back-reference to the opening tag name.  The closing
delimiter is therefore this five-character literal. -/
def closeLit : List Char := ['<', '/', '\\', '1', '>']

/-- Lazy tag-body suffix of the strip pattern: consume characters other
than the closing angle bracket up to and including the first closing angle
bracket; fail if none exists. -/
def dropTagRest : List Char → Option (List Char)
  | [] => none
  | c :: r => if c = '>' then some r else dropTagRest r

/-- Lazy any-character suffix of the strip pattern: consume up to and
including the first occurrence of `closeLit`; fail if none exists. -/
def dropToCloseLit : List Char → Option (List Char)
  | [] => none
  | c :: r =>
    if closeLit.isPrefixOf (c :: r) then some ((c :: r).drop closeLit.length)
    else dropToCloseLit r

/-- Try the strip-pattern tag alternatives in order at the position just
after an opening angle bracket, backtracking to the next alternative when
the rest of the pattern fails. -/
def tryStripTagsAt : List (List Char) → List Char → Option (List Char)
  | [], _ => none
  | t :: ts, s =>
    if lowerList (s.take t.length) = t then
      match dropTagRest (s.drop t.length) with
      | some r2 =>
        match dropToCloseLit r2 with
        | some r3 => some r3
        | none => tryStripTagsAt ts s
      | none => tryStripTagsAt ts s
    else tryStripTagsAt ts s

/-- Attempt the whole strip pattern of line 18 at the current position;
on success return the remainder after the match. -/
def matchStripAt : List Char → Option (List Char)
  | [] => none
  | c :: r => if c = '<' then tryStripTagsAt stripTagNames r else none

/-- Scanner of `re.sub` for the strip pattern: delete each non-overlapping
leftmost match.  The fuel argument bounds the scan; the wrapper passes the
input length, which suffices because every step consumes at least one
character. -/
def subScriptStyleGo : Nat → List Char → List Char
  | 0, s => s
  | _, [] => []
  | fuel + 1, c :: r =>
    match matchStripAt (c :: r) with
    | some rest => subScriptStyleGo fuel rest
    | none => c :: subScriptStyleGo fuel r

/-- `re.sub` of line 18 as the source actually behaves: the closing
delimiter is the literal `closeLit`, so ordinary markup is never removed. -/
def subScriptStyle (s : List Char) : List Char := subScriptStyleGo s.length s

/-- Modelled from the spec: the intended closing delimiter pairs the
opening tag with its own closing tag (a real back-reference), as the
source's line 17 comment and spec section 4.1 describe.  Consume up to and
including the first occurrence of the matching closing tag,
case-insensitively. -/
def dropToCloseTag (tag : List Char) : List Char → Option (List Char)
  | [] => none
  | c :: r =>
    if ('<' :: '/' :: (tag ++ ['>'])).isPrefixOf (lowerList (c :: r)) then
      some ((c :: r).drop (tag.length + 3))
    else dropToCloseTag tag r

/-- Modelled from the spec: tag alternatives with the intended
back-reference closing delimiter. -/
def tryStripTagsIntendedAt : List (List Char) → List Char → Option (List Char)
  | [], _ => none
  | t :: ts, s =>
    if lowerList (s.take t.length) = t then
      match dropTagRest (s.drop t.length) with
      | some r2 =>
        match dropToCloseTag t r2 with
        | some r3 => some r3
        | none => tryStripTagsIntendedAt ts s
      | none => tryStripTagsIntendedAt ts s
    else tryStripTagsIntendedAt ts s

/-- Modelled from the spec: the intended strip pattern at one position. -/
def matchStripIntendedAt : List Char → Option (List Char)
  | [] => none
  | c :: r => if c = '<' then tryStripTagsIntendedAt stripTagNames r else none

/-- Modelled from the spec: scanner for the intended strip substitution. -/
def subScriptStyleIntendedGo : Nat → List Char → List Char
  | 0, s => s
  | _, [] => []
  | fuel + 1, c :: r =>
    match matchStripIntendedAt (c :: r) with
    | some rest => subScriptStyleIntendedGo fuel rest
    | none => c :: subScriptStyleIntendedGo fuel r

/-- Modelled from the spec: the substitution that strips script, style,
noscript and meta elements together with their contents. -/
def subScriptStyleIntended (s : List Char) : List Char :=
  subScriptStyleIntendedGo s.length s

/-- Consume up to and including the first closing angle bracket. -/
def dropToGt : List Char → Option (List Char)
  | [] => none
  | c :: r => if c = '>' then some r else dropToGt r

/-- The tag-removal pattern of line 20 at one position: an opening angle
bracket, at least one character that is not a closing angle bracket, then
the first closing angle bracket. -/
def matchAnyTagAt : List Char → Option (List Char)
  | [] => none
  | c :: r =>
    if c = '<' then
      match r with
      | [] => none
      | d :: r2 => if d = '>' then none else dropToGt r2
    else none

/-- Scanner of `re.sub` for the tag-removal pattern of line 20. -/
def removeTagsGo : Nat → List Char → List Char
  | 0, s => s
  | _, [] => []
  | fuel + 1, c :: r =>
    match matchAnyTagAt (c :: r) with
    | some rest => removeTagsGo fuel rest
    | none => c :: removeTagsGo fuel r

/-- `re.sub` of line 20: remove every tag, keeping the text between. -/
def removeTags (s : List Char) : List Char := removeTagsGo s.length s

/-- Whitespace class of the regex escape used in the source's patterns. -/
def isPySpace (c : Char) : Bool :=
  c == ' ' || c == '\t' || c == '\n' || c == '\r' || c == '\x0b' || c == '\x0c'

/-- Greedy whitespace run (the star-quantified whitespace escape): skip
every leading whitespace character. -/
def skipPySpaces : List Char → List Char
  | [] => []
  | c :: r => if isPySpace c then skipPySpaces r else c :: r

/-- Either quote character, matching the quote character class of the
attribute and style patterns. -/
def isQuoteChar (c : Char) : Bool := c == '\"' || c == '\''

/-- Greedy run of characters that are not quote characters; returns the
run and the remainder. -/
def spanNonQuote : List Char → List Char × List Char
  | [] => ([], [])
  | c :: r =>
    if isQuoteChar c then ([], c :: r)
    else
      let p := spanNonQuote r
      (c :: p.1, p.2)

/-- Attribute-name alternatives of the pattern on line 22, in alternation
order. -/
def attrNames : List (List Char) :=
  ["alt", "title", "placeholder", "aria-label", "data-content"].map String.data

/-- Tail of the line 22 pattern after the attribute name: whitespace, an
equals sign, whitespace, an opening quote of either kind, a nonempty run
without quote characters, then a closing quote of either kind (the pattern
does not force the two quotes to agree).  Returns the captured value and
the remainder after the match. -/
def matchAttrValueTail (s : List Char) : Option (List Char × List Char) :=
  match skipPySpaces s with
  | '=' :: r2 =>
    match skipPySpaces r2 with
    | q :: r3 =>
      if isQuoteChar q then
        match spanNonQuote r3 with
        | (val, close :: rest) =>
          if val ≠ [] ∧ isQuoteChar close then some (val, rest) else none
        | (_, []) => none
      else none
    | [] => none
  | _ => none

/-- Try the attribute-name alternatives in order at one position. -/
def tryAttrNamesAt : List (List Char) → List Char → Option (List Char × List Char)
  | [], _ => none
  | n :: ns, s =>
    if lowerList (s.take n.length) = n then
      match matchAttrValueTail (s.drop n.length) with
      | some res => some res
      | none => tryAttrNamesAt ns s
    else tryAttrNamesAt ns s

/-- Scanner of `re.findall` for the attribute pattern of line 22; the
source keeps only the captured value group. -/
def findAttrValuesGo : Nat → List Char → List (List Char)
  | 0, _ => []
  | _, [] => []
  | fuel + 1, c :: r =>
    match tryAttrNamesAt attrNames (c :: r) with
    | some (val, rest) => val :: findAttrValuesGo fuel rest
    | none => findAttrValuesGo fuel r

/-- `re.findall` of line 22 restricted to the value captures. -/
def findAttrValues (s : List Char) : List (List Char) := findAttrValuesGo s.length s

/-- Literal `style` of the pattern on line 26. -/
def styleLit : List Char := "style".data

/-- Literal `content:` of the pattern on line 26. -/
def contentLit : List Char := "content:".data

/-- Lazy dot-star capture, no DOTALL: capture up to the first quote
character of either kind; fail when a newline intervenes or no quote
follows.  Returns the capture and the remainder after the closing quote. -/
def captureToQuoteNoNl : List Char → Option (List Char × List Char)
  | [] => none
  | c :: r =>
    if isQuoteChar c then some ([], r)
    else if c = '\n' then none
    else
      match captureToQuoteNoNl r with
      | some (cap, rest) => some (c :: cap, rest)
      | none => none

/-- Tail of the line 26 pattern just after the literal `content:`:
whitespace, an opening quote, then the lazy capture. -/
def styleTailMatch (remaining : List Char) : Option (List Char × List Char) :=
  match skipPySpaces remaining with
  | q :: r2 => if isQuoteChar q then captureToQuoteNoNl r2 else none
  | [] => none

/-- Greedy backtracking over the star of non-quote characters before the
literal `content:` on line 26: try the longest prefix first, then retreat
one character at a time.  `run` is the maximal non-quote run after the
opening quote and `after` the remainder beyond it. -/
def tryContentSplits : Nat → List Char → List Char → Option (List Char × List Char)
  | 0, run, after =>
    if contentLit.isPrefixOf (lowerList run) then
      styleTailMatch (run.drop contentLit.length ++ after)
    else none
  | i + 1, run, after =>
    match
      (if contentLit.isPrefixOf (lowerList (run.drop (i + 1))) then
        styleTailMatch (run.drop (i + 1 + contentLit.length) ++ after)
      else none) with
    | some res => some res
    | none => tryContentSplits i run after

/-- The whole pattern of line 26 at one position. -/
def matchStyleContentAt (s : List Char) : Option (List Char × List Char) :=
  if lowerList (s.take styleLit.length) = styleLit then
    match skipPySpaces (s.drop styleLit.length) with
    | '=' :: r2 =>
      match skipPySpaces r2 with
      | q :: r3 =>
        if isQuoteChar q then
          let p := spanNonQuote r3
          tryContentSplits p.1.length p.1 p.2
        else none
      | [] => none
    | _ => none
  else none

/-- Scanner of `re.findall` for the style-content pattern of line 26. -/
def findStyleContentsGo : Nat → List Char → List (List Char)
  | 0, _ => []
  | _, [] => []
  | fuel + 1, c :: r =>
    match matchStyleContentAt (c :: r) with
    | some (cap, rest) => cap :: findStyleContentsGo fuel rest
    | none => findStyleContentsGo fuel r

/-- `re.findall` of line 26. -/
def findStyleContents (s : List Char) : List (List Char) :=
  findStyleContentsGo s.length s

/-- `extract_chars_from_html` (lines 15-28): strip via the (defective)
line 18 substitution, remove tags, append each attribute value after a
space, append the concatenated style contents, and take the set of
characters.  Both findall passes run on the post-line-18 text, exactly as
in the source. -/
def extract_chars_from_html (html : List Char) : Finset Char :=
  let html1 := subScriptStyle html
  let text := removeTags html1
  let text2 := (findAttrValues html1).foldl (fun acc val => acc ++ ' ' :: val) text
  let text3 := text2 ++ (findStyleContents html1).foldl (fun acc sc => acc ++ sc) []
  text3.toFinset

/-- Modelled from the spec: the same extraction with the intended
strip substitution of spec section 4.1 (non-rendering elements and their
contents removed before text is collected). -/
def extract_chars_from_html_intended (html : List Char) : Finset Char :=
  let html1 := subScriptStyleIntended html
  let text := removeTags html1
  let text2 := (findAttrValues html1).foldl (fun acc val => acc ++ ' ' :: val) text
  let text3 := text2 ++ (findStyleContents html1).foldl (fun acc sc => acc ++ sc) []
  text3.toFinset

/-- C1: the HTML extraction keeps characters that occur only inside a
script element, because the strip pattern's closing delimiter is a literal
backslash-one rather than a back-reference; the intended substitution
described by the source's own comment and by the spec would have removed
them.  Evaluated at the failing input `<script>X</script>`. -/
theorem C1_script_content_not_stripped :
    extract_chars_from_html ("<script>X</script>".data) = {'X'} ∧
    extract_chars_from_html_intended ("<script>X</script>".data) = ∅ := by
  decide

/-! ### `extract_chars_from_js` (source lines 31-59) -/

/-- Lazy capture between two occurrences of the delimiter `q`, as in the
quote patterns of lines 35-38 and 55-56: capture up to the first later
occurrence of `q`.  With `dotall := false` (no DOTALL flag) the lazy dot
cannot cross a newline, so a newline before the closing delimiter makes
the position fail.  Returns the capture and the remainder after the
closing delimiter. -/
def captureToDelim (dotall : Bool) (q : Char) : List Char → Option (List Char × List Char)
  | [] => none
  | c :: r =>
    if c = q then some ([], r)
    else if dotall = false ∧ c = '\n' then none
    else
      match captureToDelim dotall q r with
      | some (cap, rest) => some (c :: cap, rest)
      | none => none

/-- Scanner of `re.findall` for a quote pattern: collect the captures of
the non-overlapping leftmost matches. -/
def findallDelimGo (dotall : Bool) (q : Char) : Nat → List Char → List (List Char)
  | 0, _ => []
  | _, [] => []
  | fuel + 1, c :: r =>
    if c = q then
      match captureToDelim dotall q r with
      | some (cap, rest) => cap :: findallDelimGo dotall q fuel rest
      | none => findallDelimGo dotall q fuel r
    else findallDelimGo dotall q fuel r

/-- `re.findall` for one quote pattern over the whole input. -/
def findallDelim (dotall : Bool) (q : Char) (s : List Char) : List (List Char) :=
  findallDelimGo dotall q s.length s

/-- Lazy part of the line 45 substitution after a dollar sign and left
brace: consume up to and including the first right brace; the pattern has
no DOTALL flag, so a newline before that brace makes the match fail. -/
def dropToRBraceNoNl : List Char → Option (List Char)
  | [] => none
  | c :: r =>
    if c = rbrace then some r
    else if c = '\n' then none
    else dropToRBraceNoNl r

/-- The line 45 pattern (a dollar sign, a left brace, a lazy body, a right
brace) at one position. -/
def matchTplExprAt : List Char → Option (List Char)
  | c1 :: c2 :: r => if c1 = '$' ∧ c2 = lbrace then dropToRBraceNoNl r else none
  | _ => none

/-- Scanner of the `re.sub` on line 45 removing embedded template
expressions from a template-literal capture. -/
def subTemplateExprGo : Nat → List Char → List Char
  | 0, s => s
  | _, [] => []
  | fuel + 1, c :: r =>
    match matchTplExprAt (c :: r) with
    | some rest => subTemplateExprGo fuel rest
    | none => c :: subTemplateExprGo fuel r

/-- `re.sub` of line 45. -/
def subTemplateExpr (s : List Char) : List Char := subTemplateExprGo s.length s

/-- Opening delimiter class of the JSX pattern on line 48: a closing angle
bracket or a right brace. -/
def isJsxOpenDelim (c : Char) : Bool := c == '>' || c == rbrace

/-- Closing delimiter class of the JSX pattern on line 48: an opening
angle bracket or a left brace. -/
def isJsxCloseDelim (c : Char) : Bool := c == '<' || c == lbrace

/-- Drop a leading run of tab characters. -/
def skipTabs : List Char → List Char
  | [] => []
  | c :: r => if c = '\t' then skipTabs r else c :: r

/-- Length of the leading run of tab characters. -/
def tabRunLen : List Char → Nat
  | [] => 0
  | c :: r => if c = '\t' then tabRunLen r + 1 else 0

/-- Lazy extension step of the JSX capture: with `cap` already captured
(at least one character), first try to finish the pattern - a greedy tab
run followed by a closing delimiter (greedy here is exact, because a tab
is never a closing delimiter) - and otherwise capture one more character,
which must not be a closing delimiter. -/
def jsxExtendGo : Nat → List Char → List Char → Option (List Char × List Char)
  | 0, _, _ => none
  | fuel + 1, cap, s =>
    match skipTabs s with
    | d :: rest =>
      if isJsxCloseDelim d then some (cap, rest)
      else
        match s with
        | [] => none
        | c :: r => if isJsxCloseDelim c then none else jsxExtendGo fuel (cap ++ [c]) r
    | [] =>
      match s with
      | [] => none
      | c :: r => if isJsxCloseDelim c then none else jsxExtendGo fuel (cap ++ [c]) r

/-- Start the lazy JSX capture: the capture group needs at least one
character, and only then may the closing part be tried. -/
def jsxCaptureFrom : List Char → Option (List Char × List Char)
  | [] => none
  | c :: r => if isJsxCloseDelim c then none else jsxExtendGo (r.length + 1) [c] r

/-- Greedy backtracking over the leading tab run of the JSX pattern: try
consuming `t` tabs first, then one fewer on failure, down to zero. -/
def jsxTryTabs : Nat → List Char → Option (List Char × List Char)
  | 0, r => jsxCaptureFrom r
  | t + 1, r =>
    match jsxCaptureFrom (r.drop (t + 1)) with
    | some res => some res
    | none => jsxTryTabs t r

/-- The whole JSX pattern of line 48 at one position. -/
def matchJsxAt : List Char → Option (List Char × List Char)
  | [] => none
  | c :: r => if isJsxOpenDelim c then jsxTryTabs (tabRunLen r) r else none

/-- Scanner of `re.findall` for the JSX pattern of line 48. -/
def findallJsxGo : Nat → List Char → List (List Char)
  | 0, _ => []
  | _, [] => []
  | fuel + 1, c :: r =>
    match matchJsxAt (c :: r) with
    | some (cap, rest) => cap :: findallJsxGo fuel rest
    | none => findallJsxGo fuel r

/-- `re.findall` of line 48. -/
def findallJsx (s : List Char) : List (List Char) := findallJsxGo s.length s

/-- Literal head of the console pattern on line 52. -/
def consoleLit : List Char := "console.".data

/-- Method alternatives of the console pattern on line 52, in alternation
order. -/
def consoleMethods : List (List Char) := ["log", "warn", "error", "info"].map String.data

/-- Greedy run of characters that are not a closing parenthesis; returns
the run and the remainder. -/
def spanNonParen : List Char → List Char × List Char
  | [] => ([], [])
  | c :: r =>
    if c = ')' then ([], c :: r)
    else
      let p := spanNonParen r
      (c :: p.1, p.2)

/-- Try the console method alternatives in order: method name, opening
parenthesis, a nonempty greedy run without closing parentheses, then the
closing parenthesis.  Returns the arguments capture and the remainder. -/
def tryConsoleMethods : List (List Char) → List Char → Option (List Char × List Char)
  | [], _ => none
  | m :: ms, s =>
    match
      (if m.isPrefixOf s then
        match s.drop m.length with
        | '(' :: r2 =>
          match spanNonParen r2 with
          | (args, _ :: rest) => if args ≠ [] then some (args, rest) else none
          | (_, []) => none
        | _ => none
      else none) with
    | some res => some res
    | none => tryConsoleMethods ms s

/-- The whole console pattern of line 52 at one position (case
sensitive: the pattern carries no IGNORECASE flag). -/
def matchConsoleAt (s : List Char) : Option (List Char × List Char) :=
  if consoleLit.isPrefixOf s then tryConsoleMethods consoleMethods (s.drop consoleLit.length)
  else none

/-- Scanner of `re.findall` for the console pattern of line 52, keeping
the arguments capture. -/
def findallConsoleGo : Nat → List Char → List (List Char)
  | 0, _ => []
  | _, [] => []
  | fuel + 1, c :: r =>
    match matchConsoleAt (c :: r) with
    | some (args, rest) => args :: findallConsoleGo fuel rest
    | none => findallConsoleGo fuel r

/-- `re.findall` of line 52 restricted to the arguments captures. -/
def findallConsoleArgs (s : List Char) : List (List Char) :=
  findallConsoleGo s.length s

/-- Accumulate the characters of a list of captured strings into one set,
as the repeated `chars.update(...)` calls do. -/
def stringChars (ms : List (List Char)) : Finset Char :=
  ms.foldl (fun acc m => acc ∪ m.toFinset) ∅

/-- Characters contributed by the double-quote pattern (line 36, DOTALL). -/
def dqContrib (js : List Char) : Finset Char := stringChars (findallDelim true '\"' js)

/-- Characters contributed by the single-quote pattern (line 37, DOTALL). -/
def sqContrib (js : List Char) : Finset Char := stringChars (findallDelim true '\'' js)

/-- Raw template-literal captures of the backtick pattern (line 38,
DOTALL). -/
def templateRawMatches (js : List Char) : List (List Char) :=
  findallDelim true backtickChar js

/-- Characters contributed by the template-literal pattern after the
line 45 substitution removed embedded expressions from each capture. -/
def templateContrib (js : List Char) : Finset Char :=
  stringChars ((templateRawMatches js).map subTemplateExpr)

/-- Characters contributed by the JSX pattern of line 48. -/
def jsxContrib (js : List Char) : Finset Char := stringChars (findallJsx js)

/-- Characters contributed by the console pattern of lines 52-58: for each
arguments capture, the double-quote strings then the single-quote strings
found inside it (both without DOTALL). -/
def consoleContrib (js : List Char) : Finset Char :=
  (findallConsoleArgs js).foldl
    (fun acc args =>
      acc ∪ stringChars (findallDelim false '\"' args) ∪
        stringChars (findallDelim false '\'' args)) ∅

/-- `extract_chars_from_js` (lines 31-59): the union of the
contributions accumulated by the source's sequential `chars.update`
loop - quote strings, template literals with embedded expressions removed,
JSX text and console argument strings. -/
def extract_chars_from_js (js : List Char) : Finset Char :=
  dqContrib js ∪ sqContrib js ∪ templateContrib js ∪ jsxContrib js ∪ consoleContrib js

/-- A script file whose character `X` occurs only inside an embedded
template expression, yet inside a double-quoted string of that
expression: a backtick, `a`, a dollar sign, a left brace, `"X"`, a right
brace, `b`, a backtick. -/
def jsTplQuoteExample : String := "`a$\x7b\"X\"\x7db`"

/-- A script file whose template expression spans two lines: a backtick,
`a`, a dollar sign, a left brace, a newline, `Q`, a newline, a right
brace, `b`, a backtick. -/
def jsTplMultilineExample : String := "`a$\x7b\nQ\n\x7db`"

/-- C5 counterexample: in `jsTplQuoteExample` the character `X` occurs
only inside the embedded template expression, yet the extraction returns
it, because the independent double-quote pattern scans the raw file text
including expression interiors.  The claim's strict exclusion is
therefore false. -/
theorem C5_counterexample :
    'X' ∈ extract_chars_from_js jsTplQuoteExample.data ∧
    extract_chars_from_js jsTplQuoteExample.data = {'a', 'b', 'X'} := by
  decide

/-- C5 (amended): the template-literal pattern's own contribution does
exclude the contents of single-line embedded expressions (`X` is absent
from it), but the overall extraction may still collect such characters
through the independent quote-string patterns (`X` enters via the
double-quote contribution), and an embedded expression containing a
newline is not removed at all (`Q` survives inside the template
contribution). -/
theorem C5_amended_thm :
    'X' ∉ templateContrib jsTplQuoteExample.data ∧
    'X' ∈ dqContrib jsTplQuoteExample.data ∧
    'X' ∈ extract_chars_from_js jsTplQuoteExample.data ∧
    'Q' ∈ templateContrib jsTplMultilineExample.data ∧
    'Q' ∈ extract_chars_from_js jsTplMultilineExample.data := by
  decide

/-! ### The always-keep set of `main` (source lines 117 and 120-123) -/

/-- The argparse default of the keep argument on line 117: a Chinese
sentence describing, rather than enumerating, the characters to keep. -/
def defaultKeepArg : String := "英文的所有字母和阿拉伯数字以及常用符号"

/-- `string.digits`. -/
def pyDigits : List Char := "0123456789".data

/-- `string.ascii_letters`. -/
def asciiLetters : List Char :=
  "abcdefghijklmnopqrstuvwxyzABCDEFGHIJKLMNOPQRSTUVWXYZ".data

/-- `string.punctuation`. -/
def pyPunctuation : List Char :=
  "!\"#$%&'()*+,-./:;<=>?@[\\]^_\x60\x7b|\x7d~".data

/-- The literal enumerated always-keep set added on line 122. -/
def literalExtraChars : Finset Char :=
  (pyDigits ++ asciiLetters ++ pyPunctuation).toFinset

/-- Lines 122-123 of `main`: always add digits, ASCII letters and
punctuation, then - when the keep argument is truthy (a nonempty
string) - also add every character of the keep argument itself. -/
def applyKeepArgs (collected : Finset Char) (keep : String) : Finset Char :=
  let s1 := collected ∪ literalExtraChars
  if keep.length ≠ 0 then s1 ∪ keep.data.toFinset else s1

set_option maxRecDepth 4000 in
/-- C2: when the user supplies no keep argument, the argparse default (a
descriptive Chinese sentence) is truthy, so line 123 adds the sentence's
own characters to the retained set; the extra characters added are not
exactly the literal enumerated set.  The character `英` of the sentence
witnesses the divergence. -/
theorem C2_descriptive_default_added :
    '英' ∈ applyKeepArgs ∅ defaultKeepArg ∧
    '英' ∉ literalExtraChars ∧
    applyKeepArgs ∅ defaultKeepArg ≠ literalExtraChars := by
  decide

/-! ### `collect_chars_from_directory` (source lines 62-79) -/

deriving instance DecidableEq for Except

/-- One file of the scanned directory: its lower-cased suffix and the
result of reading its text (reading or decoding may raise). -/
structure ScanFile where
  ext : String
  content : Except String String
deriving DecidableEq

/-- The body of the per-file try block on lines 69-75: dispatch on the
suffix, propagate a read/decode error, and otherwise extract characters
with the matching extractor.  A file of an unrecognized type contributes
nothing. -/
def processFile (f : ScanFile) : Except String (Finset Char) :=
  if f.ext = ".html" then
    match f.content with
    | Except.error e => Except.error e
    | Except.ok text => Except.ok (extract_chars_from_html text.data)
  else if f.ext ∈ ([".js", ".jsx", ".ts", ".tsx", ".json"] : List String) then
    match f.content with
    | Except.error e => Except.error e
    | Except.ok text => Except.ok (extract_chars_from_js text.data)
  else Except.ok ∅

/-- `collect_chars_from_directory` (lines 62-79): fold over the files in
traversal order; a file whose processing raises is caught by the
line 76 except clause, logged and skipped, and the scan continues. -/
def collect_chars_from_directory (files : List ScanFile) : Finset Char :=
  files.foldl
    (fun acc f =>
      match processFile f with
      | Except.ok cs => acc ∪ cs
      | Except.error _ => acc) ∅

/-- The character set a single file contributes: its extraction result on
success and the empty set when its processing raises. -/
def fileContribution (f : ScanFile) : Finset Char :=
  match processFile f with
  | Except.ok cs => cs
  | Except.error _ => ∅

/-- Whether a file's processing succeeds. -/
def processOk (f : ScanFile) : Bool :=
  match processFile f with
  | Except.ok _ => true
  | Except.error _ => false

theorem collectGo_eq (acc : Finset Char) (fs : List ScanFile) :
    fs.foldl
      (fun a f =>
        match processFile f with
        | Except.ok cs => a ∪ cs
        | Except.error _ => a) acc
      = acc ∪ (fs.map fileContribution).foldr (fun s t => s ∪ t) ∅ := by
  induction fs generalizing acc with
  | nil => simp
  | cons f fs ih =>
    simp only [List.foldl, List.map, List.foldr]
    rw [ih]
    cases h : processFile f with
    | ok cs => simp [fileContribution, h, Finset.union_assoc]
    | error e => simp [fileContribution, h]

theorem collect_eq_union (fs : List ScanFile) :
    collect_chars_from_directory fs
      = (fs.map fileContribution).foldr (fun s t => s ∪ t) ∅ := by
  unfold collect_chars_from_directory
  simpa using collectGo_eq ∅ fs

theorem foldr_union_perm {l1 l2 : List (Finset Char)} (h : l1.Perm l2) :
    l1.foldr (fun s t => s ∪ t) ∅ = l2.foldr (fun s t => s ∪ t) ∅ := by
  induction h with
  | nil => rfl
  | cons x _ ih => simp only [List.foldr]; rw [ih]
  | swap x y l => simp only [List.foldr]; exact Finset.union_left_comm y x _
  | trans _ _ ih1 ih2 => rw [ih1, ih2]

theorem union_filter_ok (fs : List ScanFile) :
    ((fs.filter processOk).map fileContribution).foldr (fun s t => s ∪ t) ∅
      = (fs.map fileContribution).foldr (fun s t => s ∪ t) ∅ := by
  induction fs with
  | nil => rfl
  | cons f fs ih =>
    by_cases h : processOk f = true
    · rw [List.filter_cons_of_pos h]
      simp only [List.map, List.foldr]
      rw [ih]
    · rw [List.filter_cons_of_neg (by simpa using h)]
      have hc : fileContribution f = ∅ := by
        unfold fileContribution
        unfold processOk at h
        cases hp : processFile f with
        | ok cs => rw [hp] at h; simp at h
        | error e => rfl
      simp only [List.map, List.foldr, hc, Finset.empty_union]
      exact ih

/-- C4: a file whose processing raises is skipped without affecting the
other files' contributions - removing it from the traversal changes
nothing - and the scan's result is exactly the result over the files that
were processed successfully.  The fold is total, so a per-file failure
never aborts the scan. -/
theorem C4_per_file_failure_skipped (fs1 fs2 : List ScanFile) (bad : ScanFile)
    (e : String) (h : processFile bad = Except.error e) :
    collect_chars_from_directory (fs1 ++ bad :: fs2)
      = collect_chars_from_directory (fs1 ++ fs2) ∧
    collect_chars_from_directory (fs1 ++ bad :: fs2)
      = collect_chars_from_directory ((fs1 ++ bad :: fs2).filter processOk) := by
  constructor
  · rw [collect_eq_union, collect_eq_union]
    have hb : fileContribution bad = ∅ := by unfold fileContribution; rw [h]
    simp [List.map_append, List.foldr_append, hb]
  · rw [collect_eq_union, collect_eq_union, union_filter_ok]

/-- A markup file that reads successfully. -/
def goodHtmlFile : ScanFile := { ext := ".html", content := Except.ok "<p>A</p>" }

/-- A markup file whose read raises a decode error. -/
def badScanFile : ScanFile := { ext := ".html", content := Except.error "decode failure" }

/-- A script file that reads successfully. -/
def jsFileA : ScanFile := { ext := ".js", content := Except.ok "const s = \"ab\";" }

/-- C4 witness at a concrete directory: one good file, one failing file. -/
theorem C4_witness :
    processFile badScanFile = Except.error "decode failure" ∧
    (collect_chars_from_directory ([goodHtmlFile] ++ badScanFile :: [])
        = collect_chars_from_directory ([goodHtmlFile] ++ []) ∧
      collect_chars_from_directory ([goodHtmlFile] ++ badScanFile :: [])
        = collect_chars_from_directory
            (([goodHtmlFile] ++ badScanFile :: []).filter processOk)) :=
  ⟨rfl, C4_per_file_failure_skipped [goodHtmlFile] [] badScanFile "decode failure" rfl⟩

/-- C8: the scan's result is the set union of the per-file contributions,
and - union being commutative and associative - any traversal order of the
same files yields the same character set. -/
theorem C8_union_order_independent (fs1 fs2 : List ScanFile) (h : fs1.Perm fs2) :
    collect_chars_from_directory fs1
      = (fs1.map fileContribution).foldr (fun s t => s ∪ t) ∅ ∧
    collect_chars_from_directory fs1 = collect_chars_from_directory fs2 := by
  refine ⟨collect_eq_union fs1, ?_⟩
  rw [collect_eq_union, collect_eq_union]
  exact foldr_union_perm (h.map fileContribution)

/-- C8 witness at two concrete traversal orders of the same three files. -/
theorem C8_witness :
    (badScanFile :: goodHtmlFile :: [jsFileA]).Perm
        (goodHtmlFile :: badScanFile :: [jsFileA]) ∧
    (collect_chars_from_directory (badScanFile :: goodHtmlFile :: [jsFileA])
        = ((badScanFile :: goodHtmlFile :: [jsFileA]).map fileContribution).foldr
            (fun s t => s ∪ t) ∅ ∧
      collect_chars_from_directory (badScanFile :: goodHtmlFile :: [jsFileA])
        = collect_chars_from_directory (goodHtmlFile :: badScanFile :: [jsFileA])) :=
  ⟨List.Perm.swap goodHtmlFile badScanFile [jsFileA],
    C8_union_order_independent _ _ (List.Perm.swap goodHtmlFile badScanFile [jsFileA])⟩

/-! ### `create_font_subset` (source lines 82-103)

The fontTools library is external to the repository; it is modelled as a
record of pure functions (`FontLib`).  The run is embedded as explicit
data flow with a trace: which file operations happen, which options record
is handed to the library, and - for the frame condition - the identity and
content of the single font object the source creates.  Line 83 creates one
`TTFont` object (modelled with identity 0); the source creates no other
font object, `subsetter.subset(font)` on line 101 returns nothing usable
and acts by mutating that object, and `save_font(font, ...)` on line 102
receives the very same object. -/

/-- A file-system operation the run can perform. -/
inductive FsOp where
  | readFont : String → FsOp
  | writeFile : String → FsOp
  | replaceFile : String → String → FsOp
deriving DecidableEq

/-- The four subsetting options the source assigns on lines 85-88. -/
structure SubsetOptions where
  desubroutinize : Bool
  hinting : Bool
  legacy_cmap : Bool
  symbol_cmap : Bool
deriving DecidableEq

/-- The options record built on lines 84-88: strip hinting, drop legacy
and symbol character-map subtables, inline outline subroutines. -/
def subsetOptionsUsed : SubsetOptions :=
  { desubroutinize := true, hinting := false, legacy_cmap := false, symbol_cmap := false }

/-- In-memory font content - the bytes of a font container. -/
abbrev FontData := List Nat

/-- The external fontTools surface the source calls, as pure functions:
parsing the read bytes (`TTFont`), subsetting (`Subsetter.populate` and
`Subsetter.subset`, whose effect is the new content of the mutated
object), and serialization (`save_font`). -/
structure FontLib where
  parse : FontData → Except String FontData
  subsetFont : SubsetOptions → Finset Nat → FontData → Except String FontData
  saveBytes : SubsetOptions → FontData → Except String (List Nat)

/-- Lines 89-97: the code points of the collected characters joined with
the required whitespace code points of space, newline, tab and carriage
return (the line 91 try never fails for a genuine character, so `ord` is
total here). -/
def buildUnicodeSet (char_set : Finset Char) : Finset Nat :=
  char_set.image Char.toNat ∪ ({32, 10, 9, 13} : Finset Nat)

/-- Python truthiness of the set on line 98: nonemptiness. -/
def setTruthy (s : Finset Nat) : Bool := decide s.Nonempty

/-- Everything observable about one run of `create_font_subset`. -/
structure RunTrace where
  ops : List FsOp
  optionsUsed : SubsetOptions
  loadedFontId : Option Nat
  loadedContent : Option FontData
  savedFontId : Option Nat
  fontAtSave : Option FontData
  savedBytes : Option (List Nat)
  exitOk : Bool
deriving DecidableEq

/-- `create_font_subset` (lines 82-103): read and parse the input font,
build the code-point set, subset in place when the set is truthy, then
save the same object directly to the output path.  A raised step leaves
`exitOk := false` (the exception propagates out of `main`, giving the
process a nonzero exit status); no temporary file and no replace
operation appear anywhere. -/
def create_font_subset (lib : FontLib) (font_path output_path : String)
    (fontBytes : FontData) (char_set : Finset Char) : RunTrace :=
  match lib.parse fontBytes with
  | Except.error _ =>
    { ops := [FsOp.readFont font_path], optionsUsed := subsetOptionsUsed,
      loadedFontId := none, loadedContent := none, savedFontId := none,
      fontAtSave := none, savedBytes := none, exitOk := false }
  | Except.ok font0 =>
    let uset := buildUnicodeSet char_set
    if setTruthy uset then
      match lib.subsetFont subsetOptionsUsed uset font0 with
      | Except.error _ =>
        { ops := [FsOp.readFont font_path], optionsUsed := subsetOptionsUsed,
          loadedFontId := some 0, loadedContent := some font0, savedFontId := none,
          fontAtSave := none, savedBytes := none, exitOk := false }
      | Except.ok font1 =>
        match lib.saveBytes subsetOptionsUsed font1 with
        | Except.error _ =>
          { ops := [FsOp.readFont font_path, FsOp.writeFile output_path],
            optionsUsed := subsetOptionsUsed, loadedFontId := some 0,
            loadedContent := some font0, savedFontId := some 0,
            fontAtSave := some font1, savedBytes := none, exitOk := false }
        | Except.ok outBytes =>
          { ops := [FsOp.readFont font_path, FsOp.writeFile output_path],
            optionsUsed := subsetOptionsUsed, loadedFontId := some 0,
            loadedContent := some font0, savedFontId := some 0,
            fontAtSave := some font1, savedBytes := some outBytes, exitOk := true }
    else
      match lib.saveBytes subsetOptionsUsed font0 with
      | Except.error _ =>
        { ops := [FsOp.readFont font_path, FsOp.writeFile output_path],
          optionsUsed := subsetOptionsUsed, loadedFontId := some 0,
          loadedContent := some font0, savedFontId := some 0,
          fontAtSave := some font0, savedBytes := none, exitOk := false }
      | Except.ok outBytes =>
        { ops := [FsOp.readFont font_path, FsOp.writeFile output_path],
          optionsUsed := subsetOptionsUsed, loadedFontId := some 0,
          loadedContent := some font0, savedFontId := some 0,
          fontAtSave := some font0, savedBytes := some outBytes, exitOk := true }

/-- Whether a replace (temp-then-rename) operation occurs in a trace. -/
def hasReplaceOp : List FsOp → Bool
  | [] => false
  | FsOp.replaceFile _ _ :: _ => true
  | _ :: r => hasReplaceOp r

theorem mem_buildUnicodeSet_basic (cs : Finset Char) :
    (32 : Nat) ∈ buildUnicodeSet cs :=
  Finset.mem_union_right _ (by decide)

theorem setTruthy_buildUnicodeSet (cs : Finset Char) :
    setTruthy (buildUnicodeSet cs) = true := by
  unfold setTruthy
  simp only [decide_eq_true_eq]
  exact ⟨32, mem_buildUnicodeSet_basic cs⟩

/-- C6: whatever the collected character set - including the empty set -
the code-point set built on lines 89-97 contains the code points of
space, newline, tab and carriage return; it is therefore never empty, so
the line 98 guard is always truthy and the subsetting branch is always
taken. -/
theorem C6_required_whitespace (cs : Finset Char) :
    ({32, 10, 9, 13} : Finset Nat) ⊆ buildUnicodeSet cs ∧
    (buildUnicodeSet cs).Nonempty ∧
    setTruthy (buildUnicodeSet cs) = true := by
  refine ⟨fun x hx => Finset.mem_union_right _ hx, ⟨32, mem_buildUnicodeSet_basic cs⟩,
    setTruthy_buildUnicodeSet cs⟩

/-- C10: the rebuild configuration is one fixed record - hinting
stripped, legacy character maps dropped, symbol character maps dropped,
outlines desubroutinized - regardless of every caller-controlled input,
as the Python function builds it locally and exposes no parameter for
it. -/
theorem C10_fixed_rebuild_config (lib : FontLib) (fp outp : String)
    (fb : FontData) (cs : Finset Char) :
    (create_font_subset lib fp outp fb cs).optionsUsed = subsetOptionsUsed ∧
    subsetOptionsUsed.desubroutinize = true ∧
    subsetOptionsUsed.hinting = false ∧
    subsetOptionsUsed.legacy_cmap = false ∧
    subsetOptionsUsed.symbol_cmap = false := by
  refine ⟨?_, rfl, rfl, rfl, rfl⟩
  unfold create_font_subset
  cases lib.parse fb with
  | error e => rfl
  | ok f0 =>
    simp only [setTruthy_buildUnicodeSet, if_true]
    split
    · rfl
    · split
      · rfl
      · rfl

/-- C7: the run is deterministic - identical input font bytes, identical
character set and the (fixed) configuration give identical traces and
identical output bytes, the library being a pure function of those
inputs. -/
theorem C7_deterministic (lib : FontLib) (fp outp : String) (fb1 fb2 : FontData)
    (cs1 cs2 : Finset Char) (h1 : fb1 = fb2) (h2 : cs1 = cs2) :
    create_font_subset lib fp outp fb1 cs1 = create_font_subset lib fp outp fb2 cs2 ∧
    (create_font_subset lib fp outp fb1 cs1).savedBytes
      = (create_font_subset lib fp outp fb2 cs2).savedBytes := by
  subst h1
  subst h2
  exact ⟨rfl, rfl⟩

/-- A concrete library instance whose subsetting step shrinks the font. -/
def demoLibA : FontLib :=
  { parse := fun b => Except.ok b,
    subsetFont := fun _ _ f => Except.ok (f.take 1),
    saveBytes := fun _ f => Except.ok f }

/-- A concrete library instance whose parse step raises. -/
def failLib : FontLib :=
  { parse := fun _ => Except.error "bad sfnt header",
    subsetFont := fun _ _ f => Except.ok f,
    saveBytes := fun _ f => Except.ok f }

/-- C7 witness at concrete identical inputs. -/
theorem C7_witness :
    ([1, 2, 3] : FontData) = [1, 2, 3] ∧ ({'a'} : Finset Char) = {'a'} ∧
    (create_font_subset demoLibA "Font.ttf" "Output.ttf" [1, 2, 3] {'a'}
        = create_font_subset demoLibA "Font.ttf" "Output.ttf" [1, 2, 3] {'a'} ∧
      (create_font_subset demoLibA "Font.ttf" "Output.ttf" [1, 2, 3] {'a'}).savedBytes
        = (create_font_subset demoLibA "Font.ttf" "Output.ttf" [1, 2, 3] {'a'}).savedBytes) :=
  ⟨rfl, rfl,
    C7_deterministic demoLibA "Font.ttf" "Output.ttf" [1, 2, 3] [1, 2, 3] {'a'} {'a'} rfl rfl⟩

/-- C3 counterexample: a successful concrete run performs no
temp-then-replace operation at all and writes the output path directly,
so the claim's write-to-temporary-location-and-atomically-move mechanism
is absent. -/
theorem C3_counterexample :
    hasReplaceOp (create_font_subset demoLibA "Font.ttf" "Output.ttf" [1, 2, 3] ∅).ops
        = false ∧
    FsOp.writeFile "Output.ttf"
        ∈ (create_font_subset demoLibA "Font.ttf" "Output.ttf" [1, 2, 3] ∅).ops ∧
    (create_font_subset demoLibA "Font.ttf" "Output.ttf" [1, 2, 3] ∅).exitOk = true := by
  decide

/-- C3 (amended): every failing step still ends the run with a nonzero
exit status, and a failure while parsing or subsetting leaves the output
path untouched (the only file operation so far is the input read); but
the save step writes directly to the output path - no replace operation
ever occurs - so a failure during saving can leave a partial file there. -/
theorem C3_no_temp_write (lib : FontLib) (fp outp : String) (fb : FontData)
    (cs : Finset Char) :
    (∀ a b, FsOp.replaceFile a b ∉ (create_font_subset lib fp outp fb cs).ops) ∧
    ((∃ e, lib.parse fb = Except.error e) →
      (create_font_subset lib fp outp fb cs).exitOk = false ∧
      (create_font_subset lib fp outp fb cs).ops = [FsOp.readFont fp]) ∧
    (∀ f0 e2, lib.parse fb = Except.ok f0 →
      lib.subsetFont subsetOptionsUsed (buildUnicodeSet cs) f0 = Except.error e2 →
      (create_font_subset lib fp outp fb cs).exitOk = false ∧
      (create_font_subset lib fp outp fb cs).ops = [FsOp.readFont fp]) ∧
    (∀ f0 f1 e3, lib.parse fb = Except.ok f0 →
      lib.subsetFont subsetOptionsUsed (buildUnicodeSet cs) f0 = Except.ok f1 →
      lib.saveBytes subsetOptionsUsed f1 = Except.error e3 →
      (create_font_subset lib fp outp fb cs).exitOk = false ∧
      FsOp.writeFile outp ∈ (create_font_subset lib fp outp fb cs).ops) := by
  refine ⟨?_, ?_, ?_, ?_⟩
  · intro a b
    unfold create_font_subset
    cases lib.parse fb with
    | error e => simp
    | ok f0 =>
      simp only [setTruthy_buildUnicodeSet, if_true]
      split
      · simp
      · split <;> simp
  · rintro ⟨e, he⟩
    unfold create_font_subset
    rw [he]
    exact ⟨rfl, rfl⟩
  · intro f0 e2 hp hs
    unfold create_font_subset
    rw [hp]
    simp [setTruthy_buildUnicodeSet, hs]
  · intro f0 f1 e3 hp hs hw
    unfold create_font_subset
    rw [hp]
    simp [setTruthy_buildUnicodeSet, hs, hw]

/-- C3 witness: a concrete run whose parse step raises exits nonzero with
the output path untouched. -/
theorem C3_witness :
    (∃ e, failLib.parse [0] = Except.error e) ∧
    ((create_font_subset failLib "Font.ttf" "Output.ttf" [0] ∅).exitOk = false ∧
      (create_font_subset failLib "Font.ttf" "Output.ttf" [0] ∅).ops
        = [FsOp.readFont "Font.ttf"]) :=
  ⟨⟨"bad sfnt header", rfl⟩,
    (C3_no_temp_write failLib "Font.ttf" "Output.ttf" [0] ∅).2.1
      ⟨"bad sfnt header", rfl⟩⟩

/-- C9 counterexample: in a concrete run the object handed to
`save_font` is the very object created by `TTFont` (identity 0 - no fresh
output container exists), and its content at save time differs from its
loaded state, so the loaded container did not stay equal to its loaded
state. -/
theorem C9_counterexample :
    (create_font_subset demoLibA "Font.ttf" "Output.ttf" [1, 2, 3] ∅).savedFontId
        = (create_font_subset demoLibA "Font.ttf" "Output.ttf" [1, 2, 3] ∅).loadedFontId ∧
    (create_font_subset demoLibA "Font.ttf" "Output.ttf" [1, 2, 3] ∅).savedFontId = some 0 ∧
    (create_font_subset demoLibA "Font.ttf" "Output.ttf" [1, 2, 3] ∅).fontAtSave = some [1] ∧
    (create_font_subset demoLibA "Font.ttf" "Output.ttf" [1, 2, 3] ∅).loadedContent
        = some [1, 2, 3] ∧
    (create_font_subset demoLibA "Font.ttf" "Output.ttf" [1, 2, 3] ∅).fontAtSave
        ≠ (create_font_subset demoLibA "Font.ttf" "Output.ttf" [1, 2, 3] ∅).loadedContent := by
  decide

/-- C9 (amended): the single loaded container is subset in place and the
same instance is saved - whenever parsing and subsetting succeed, the
saved object is the loaded object (identity 0) and its content at save
time is the subsetting step's result, not the loaded content; no fresh
output container is assembled anywhere in the run. -/
theorem C9_in_place_subsetting (lib : FontLib) (fp outp : String) (fb : FontData)
    (cs : Finset Char) (f0 f1 : FontData)
    (hparse : lib.parse fb = Except.ok f0)
    (hsub : lib.subsetFont subsetOptionsUsed (buildUnicodeSet cs) f0 = Except.ok f1) :
    (create_font_subset lib fp outp fb cs).loadedFontId = some 0 ∧
    (create_font_subset lib fp outp fb cs).savedFontId = some 0 ∧
    (create_font_subset lib fp outp fb cs).loadedContent = some f0 ∧
    (create_font_subset lib fp outp fb cs).fontAtSave = some f1 := by
  unfold create_font_subset
  rw [hparse]
  simp only [setTruthy_buildUnicodeSet, if_true, hsub]
  cases lib.saveBytes subsetOptionsUsed f1 with
  | error e => exact ⟨rfl, rfl, rfl, rfl⟩
  | ok bs => exact ⟨rfl, rfl, rfl, rfl⟩

/-- C9 witness at a concrete run. -/
theorem C9_witness :
    demoLibA.parse [1, 2, 3] = Except.ok [1, 2, 3] ∧
    demoLibA.subsetFont subsetOptionsUsed (buildUnicodeSet ∅) [1, 2, 3]
        = Except.ok [1] ∧
    ((create_font_subset demoLibA "Font.ttf" "Output.ttf" [1, 2, 3] ∅).loadedFontId
        = some 0 ∧
      (create_font_subset demoLibA "Font.ttf" "Output.ttf" [1, 2, 3] ∅).savedFontId
        = some 0 ∧
      (create_font_subset demoLibA "Font.ttf" "Output.ttf" [1, 2, 3] ∅).loadedContent
        = some [1, 2, 3] ∧
      (create_font_subset demoLibA "Font.ttf" "Output.ttf" [1, 2, 3] ∅).fontAtSave
        = some [1]) :=
  ⟨rfl, rfl,
    C9_in_place_subsetting demoLibA "Font.ttf" "Output.ttf" [1, 2, 3] ∅ [1, 2, 3] [1]
      rfl rfl⟩

end FontCompress
